import Mathlib

/-
Verification development for the order-lifecycle subsystem of the vid
marketplace backend.

The definitions below are a shallow embedding of
src/src/Controllers/order.controller.js (createOrder, updateOrderStatus,
cancelOrder) over the Prisma data model (schema.prisma: Order,
OrderStatusHistory, FreelancerProfile, Gig, Notification) together with
src/src/Utils/notificationService.js (queueNotification).

Modelling conventions:
- JS numbers used for money are modelled as Rat; the factors 1.5 and 0.5
  from the source are written as ratios 3/2 and 1/2.
- Timestamps are not claim-relevant beyond being set, so DateTime fields
  that the controllers assign are modelled as set-flags, and timestamp
  order of OrderStatusHistory rows is the append order of the history list.
- Fallible side effects whose promise rejections the source swallows with
  a catch handler (the fire-and-forget gig / freelancerProfile updates in
  createOrder, queueNotification, notification creation) are modelled by
  Bool flags on the operation input stating whether that side effect
  succeeds; a flag set to false reproduces the failure path of the source.
- An ApiError thrown inside a controller is modelled as the error result;
  the uniform outer catch that re-wraps every error into a 500 response is
  represented by the dedicated 500-coded errors where the source reaches
  it with a non-ApiError exception (unique-constraint violation, undefined
  property access).
- The OrderStatus type is the union of the two enum revisions present in
  the repository (schema.prisma has PENDING/ACCEPTED/IN_PROGRESS/DELIVERED/
  COMPLETED/CANCELLED/DISPUTED, migration 20250713124515 has
  PENDING/CURRENT/COMPLETED/REJECTED); the controllers mention statuses
  from both revisions, so the union is the faithful value space.
-/

namespace Vid

inductive OrderStatus where
  | PENDING
  | ACCEPTED
  | IN_PROGRESS
  | DELIVERED
  | COMPLETED
  | CANCELLED
  | DISPUTED
  | CURRENT
  | REJECTED
deriving DecidableEq, Repr

structure Order where
  id : Nat
  gigId : Nat
  clientId : Nat
  freelancerId : Nat
  package : String
  totalPrice : Rat
  priorityFee : Option Rat
  status : OrderStatus
  orderNumber : String
  cancellationReason : Option String
  cancellationDateSet : Bool
  completedAtSet : Bool
  isUrgent : Bool
deriving DecidableEq, Repr

/-- One OrderStatusHistory row; the position in the history list is the
timestamp order (rows are only ever appended at the current time). -/
structure StatusHistoryRow where
  orderId : Nat
  status : OrderStatus
  changedBy : Option Nat
deriving DecidableEq, Repr

structure FreelancerProfile where
  id : Nat
  userId : Nat
  activeOrders : Int
  orderCount : Int
deriving DecidableEq, Repr

structure Gig where
  id : Nat
  freelancerId : Nat
  status : String
  pricing : List (String × Rat)
  orderCount : Int
  views : Int
deriving DecidableEq, Repr

structure Notification where
  userId : Nat
  entityId : Nat
  content : String
deriving DecidableEq, Repr

/-- The DeferredDeliveryJob value handed to the bull queue by
queueNotification. -/
structure QueueJob where
  orderId : Nat
  clientId : Nat
  freelancerId : Nat
  orderNumber : String
  status : Option OrderStatus
deriving DecidableEq, Repr

structure DB where
  gigs : List Gig
  profiles : List FreelancerProfile
  orders : List Order
  history : List StatusHistoryRow
  notifications : List Notification
  queued : List QueueJob
  nextOrderId : Nat
deriving DecidableEq, Repr

/-- ApiError as thrown by the controllers: HTTP status code plus message. -/
structure ApiErr where
  code : Nat
  msg : String
deriving DecidableEq, Repr

def strACTIVE : String := "ACTIVE"

def errGigNotFound : ApiErr := ⟨404, "Gig not found or not active"⟩

def errInvalidPackage : ApiErr := ⟨400, "Invalid package selected"⟩

/-- The outer catch of createOrder wraps any non-ApiError exception
(e.g. the unique-constraint violation on orderNumber) into this 500. -/
def errCreateFailed : ApiErr := ⟨500, "Failed to create order"⟩

def errOrderNotFound : ApiErr := ⟨404, "Order not found"⟩

def errForbiddenUpdate : ApiErr := ⟨403, "Forbidden: You can only update your own orders"⟩

/-- Source message is interpolated with the attempted edge; the constant
prefix is kept. -/
def errInvalidTransition : ApiErr := ⟨400, "Invalid status transition"⟩

def errUpdateFailed : ApiErr := ⟨500, "Failed to update order status"⟩

def errCancelFailed : ApiErr := ⟨500, "Failed to cancel order"⟩

def errCannotCancel : ApiErr := ⟨400, "Order cannot be cancelled in its current status"⟩

def defaultRejectReason : String := "Freelancer rejected the order."

def defaultCancelReason : String := "Not specified"

def msgPlacedA : String := "Your order "

def msgPlacedB : String := " has been placed."

def msgNewA : String := "You have a new order "

def msgNewB : String := "."

def msgStatusA : String := "Order "

def msgStatusB : String := " status updated."

def findGig (db : DB) (gid : Nat) : Option Gig :=
  db.gigs.find? (fun g => g.id == gid)

def findProfile (db : DB) (pid : Nat) : Option FreelancerProfile :=
  db.profiles.find? (fun p => p.id == pid)

def findOrder (db : DB) (oid : Nat) : Option Order :=
  db.orders.find? (fun o => o.id == oid)

/-- Statuses of the OrderStatusHistory rows of one order, in timestamp
(= append) order. -/
def historyOf (db : DB) (oid : Nat) : List OrderStatus :=
  (db.history.filter (fun h => h.orderId == oid)).map (fun h => h.status)

def zeroStr : String := "0"

def pad2 (n : Nat) : String :=
  if n < 10 then zeroStr ++ toString n else toString n

def ordPre : String := "ORD-"

def dashStr : String := "-"

/-- Order number generation of createOrder line 41:
ORD-YYYYMMDD-SUFF where SUFF is the first 4 hex chars of a uuid v4,
uppercased. The random suffix is a parameter here. -/
def genOrderNumber (year month day : Nat) (suffix : String) : String :=
  ordPre ++ toString year ++ pad2 month ++ pad2 day ++ dashStr ++ suffix

/-- Input of createOrder. The Bool flags model whether each fallible
side effect succeeds (their failures are swallowed in the source):
gigUpdOk / profUpdOk are the fire-and-forget counter updates inside the
transaction, enqOk is queueNotification, notifOk is
notification.createMany. -/
structure CreateInput where
  clientId : Nat
  gigId : Nat
  selectedPackage : String
  expressDelivery : Bool
  orderNumber : String
  gigUpdOk : Bool
  profUpdOk : Bool
  enqOk : Bool
  notifOk : Bool
deriving DecidableEq, Repr

/-- The Order row inserted by createOrder (status PENDING, price and
priority fee computed from the package base price and expressDelivery). -/
def mkNewOrder (db : DB) (i : CreateInput) (gig : Gig) (basePrice : Rat) : Order :=
  { id := db.nextOrderId
    gigId := gig.id
    clientId := i.clientId
    freelancerId := gig.freelancerId
    package := i.selectedPackage
    totalPrice := if i.expressDelivery then basePrice * (3 / 2 : Rat) else basePrice
    priorityFee := if i.expressDelivery then some (basePrice * (1 / 2 : Rat)) else none
    status := OrderStatus.PENDING
    orderNumber := i.orderNumber
    cancellationReason := none
    cancellationDateSet := false
    completedAtSet := false
    isUrgent := i.expressDelivery }

/-- The gig metrics update of createOrder (orderCount, views incremented,
lastOrderedAt refreshed). -/
def bumpGig (gid : Nat) (g : Gig) : Gig :=
  if g.id == gid then { g with orderCount := g.orderCount + 1, views := g.views + 1 } else g

/-- The freelancer profile update of createOrder: lifetime orderCount and
activeOrders both incremented at creation time, while the order is still
PENDING. -/
def bumpProfile (fid : Nat) (p : FreelancerProfile) : FreelancerProfile :=
  if p.id == fid then { p with orderCount := p.orderCount + 1, activeOrders := p.activeOrders + 1 }
  else p

/-- The state committed by the createOrder transaction: the new order row,
its initial PENDING audit row, and (when their fire-and-forget promises
succeed) the gig and freelancer-profile counter bumps. A failed bump is
swallowed by the catch handler, so the transaction commits without it. -/
def createCommitDB (db : DB) (i : CreateInput) (gig : Gig) (basePrice : Rat) : DB :=
  let newOrder := mkNewOrder db i gig basePrice
  let db1 : DB :=
    { db with
      orders := db.orders ++ [newOrder]
      history := db.history ++ [⟨newOrder.id, OrderStatus.PENDING, some i.clientId⟩]
      nextOrderId := db.nextOrderId + 1 }
  let db2 : DB :=
    if i.gigUpdOk then { db1 with gigs := db1.gigs.map (bumpGig gig.id) } else db1
  if i.profUpdOk then { db2 with profiles := db2.profiles.map (bumpProfile gig.freelancerId) }
  else db2

/-- Post-commit best-effort notifications of createOrder: queueNotification
and notification.createMany, both with their rejections swallowed. -/
def createPostCommit (db3 : DB) (i : CreateInput) (oid : Nat) (fu : Nat) : DB :=
  let db4 : DB :=
    if i.enqOk then { db3 with queued := db3.queued ++ [⟨oid, i.clientId, fu, i.orderNumber, none⟩] }
    else db3
  if i.notifOk then
    { db4 with
      notifications := db4.notifications ++
        [⟨i.clientId, oid, msgPlacedA ++ i.orderNumber ++ msgPlacedB⟩,
         ⟨fu, oid, msgNewA ++ i.orderNumber ++ msgNewB⟩] }
  else db4

/-- createOrder (order.controller.js lines 10-172). Returns the database
after the call together with the handler outcome. Checks in source order:
gig lookup and ACTIVE status (one shared 404), package resolution, then
the transaction; a duplicate orderNumber makes the insert violate the
unique constraint, rolling the transaction back (surfaced as the wrapped
500). On commit the freelancer user id is read from the included relation
for the post-commit notifications. -/
def createOrder (db : DB) (i : CreateInput) : DB × Except ApiErr Order :=
  match findGig db i.gigId with
  | none => (db, Except.error errGigNotFound)
  | some gig =>
    if gig.status != strACTIVE then (db, Except.error errGigNotFound)
    else
      match gig.pricing.find? (fun pkg => pkg.1 == i.selectedPackage) with
      | none => (db, Except.error errInvalidPackage)
      | some pkg =>
        if db.orders.any (fun o => o.orderNumber == i.orderNumber) then
          (db, Except.error errCreateFailed)
        else
          let newOrder := mkNewOrder db i gig pkg.2
          let db3 := createCommitDB db i gig pkg.2
          match (findProfile db3 gig.freelancerId).map (fun p => p.userId) with
          | none =>
            -- order.freelancer is missing: the post-commit property access
            -- throws, the outer catch reports failure, but the commit stands
            (db3, Except.error errCreateFailed)
          | some fu => (createPostCommit db3 i newOrder.id fu, Except.ok newOrder)

/-- The transition table of updateOrderStatus (lines 206-211). Statuses
absent from the literal object give an undefined lookup, which the
optional-chaining membership test treats as no allowed transitions. -/
def validTransitions : OrderStatus → List OrderStatus
  | OrderStatus.PENDING => [OrderStatus.CURRENT, OrderStatus.REJECTED]
  | OrderStatus.CURRENT => [OrderStatus.COMPLETED, OrderStatus.REJECTED]
  | _ => []

/-- Input of updateOrderStatus. notifOk models the awaited in-transaction
notification.create (its failure aborts the transaction); enqOk models the
awaited post-commit queueNotification (its failure is NOT caught before
the outer handler). -/
structure UpdateInput where
  userId : Nat
  orderId : Nat
  status : OrderStatus
  cancellationReason : Option String
  notifOk : Bool
  enqOk : Bool
deriving DecidableEq, Repr

/-- The derived field updates applied to the order row by
updateOrderStatus: REJECTED sets a cancellation reason (request value or
default) and cancellation date, COMPLETED sets completedAt. -/
def applyStatusUpd (i : UpdateInput) (o : Order) : Order :=
  { o with
    status := i.status
    cancellationReason :=
      if i.status == OrderStatus.REJECTED then
        some (i.cancellationReason.getD defaultRejectReason)
      else o.cancellationReason
    cancellationDateSet := o.cancellationDateSet || (i.status == OrderStatus.REJECTED)
    completedAtSet := o.completedAtSet || (i.status == OrderStatus.COMPLETED) }

/-- updateOrderStatus (order.controller.js lines 175-270). The transaction
loads the order, authorizes the caller as its client or freelancer,
validates the edge against validTransitions, applies the field updates,
appends one audit row, and creates one notification for the counter-party;
all of that commits together. The post-commit queueNotification is awaited
without a catch, so its failure reaches the outer handler and the call
reports failure even though the transaction committed. -/
def updateOrderStatus (db : DB) (i : UpdateInput) : DB × Except ApiErr Order :=
  match findOrder db i.orderId with
  | none => (db, Except.error errOrderNotFound)
  | some order =>
    let isClient := order.clientId == i.userId
    let fUser := (findProfile db order.freelancerId).map (fun p => p.userId)
    let isFreelancer := fUser == some i.userId
    if !isClient && !isFreelancer then (db, Except.error errForbiddenUpdate)
    else if !((validTransitions order.status).contains i.status) then
      (db, Except.error errInvalidTransition)
    else if !i.notifOk then
      -- the awaited tx.notification.create rejects: the transaction rolls back
      (db, Except.error errUpdateFailed)
    else
      match fUser with
      | none =>
        -- only reachable with isClient; building the notification recipient
        -- order.freelancer.user.id throws inside the transaction
        (db, Except.error errUpdateFailed)
      | some fu =>
        let recip := if isClient then fu else order.clientId
        let db1 : DB :=
          { db with
            orders := db.orders.map (fun o => if o.id == order.id then applyStatusUpd i o else o)
            history := db.history ++ [⟨order.id, i.status, some i.userId⟩]
            notifications := db.notifications ++
              [⟨recip, order.id, msgStatusA ++ order.orderNumber ++ msgStatusB⟩] }
        if i.enqOk then
          ({ db1 with
             queued := db1.queued ++ [⟨order.id, order.clientId, fu, order.orderNumber, some i.status⟩] },
           Except.ok (applyStatusUpd i order))
        else (db1, Except.error errUpdateFailed)

structure CancelInput where
  userId : Nat
  orderId : Nat
  cancellationReason : Option String
deriving DecidableEq, Repr

/-- The status guard of cancelOrder, line 445. -/
def cancellableStatuses : List OrderStatus :=
  [OrderStatus.PENDING, OrderStatus.ACCEPTED, OrderStatus.IN_PROGRESS]

/-- cancelOrder (order.controller.js lines 425-497). The query includes
freelancer WITHOUT its nested user relation, so order.freelancer.user is
undefined. A non-client caller crashes in the authorization guard when it
evaluates order.freelancer.user.id; a client caller passes the guard by
short-circuit and the status guard, but the transaction body then
evaluates order.freelancer.user.id for the notification recipient and
throws, rolling the transaction back. No execution of cancelOrder ever
commits: the written CANCELLED update, audit row, and activeOrders
decrement are always rolled back and the handler reports the wrapped 500. -/
def cancelOrder (db : DB) (i : CancelInput) : DB × Except ApiErr Order :=
  match findOrder db i.orderId with
  | none => (db, Except.error errOrderNotFound)
  | some order =>
    if order.clientId != i.userId then (db, Except.error errCancelFailed)
    else if !(cancellableStatuses.contains order.status) then
      (db, Except.error errCannotCancel)
    else (db, Except.error errCancelFailed)

/-- One Coordinator operation: a create, transition, or cancel request. -/
inductive Op where
  | create (i : CreateInput)
  | update (i : UpdateInput)
  | cancel (i : CancelInput)
deriving DecidableEq, Repr

/-- The database after one operation (whatever the handler outcome). -/
def applyOp (db : DB) : Op → DB
  | Op.create i => (createOrder db i).1
  | Op.update i => (updateOrderStatus db i).1
  | Op.cancel i => (cancelOrder db i).1

/-- The database after a sequence of operations. -/
def applyRun (db : DB) : List Op → DB
  | [] => db
  | op :: rest => applyRun (applyOp db op) rest

/-! Spec-side definitions, transcribed from the claim text for comparison
with the code-side definitions above. -/

/-- Transcribed from the claim text (spec section 4.1): the statuses
counted toward provider capacity. -/
def specActiveSet : List OrderStatus :=
  [OrderStatus.ACCEPTED, OrderStatus.IN_PROGRESS, OrderStatus.DELIVERED, OrderStatus.DISPUTED]

/-- Transcribed from the claim text (spec section 4.1): the spec
transition table; Completed, Cancelled, Rejected are terminal. -/
def specTransition : OrderStatus → List OrderStatus
  | OrderStatus.PENDING => [OrderStatus.ACCEPTED, OrderStatus.REJECTED]
  | OrderStatus.ACCEPTED => [OrderStatus.IN_PROGRESS, OrderStatus.CANCELLED]
  | OrderStatus.IN_PROGRESS => [OrderStatus.DELIVERED, OrderStatus.CANCELLED]
  | OrderStatus.DELIVERED => [OrderStatus.COMPLETED, OrderStatus.DISPUTED]
  | OrderStatus.DISPUTED => [OrderStatus.COMPLETED, OrderStatus.CANCELLED]
  | _ => []

/-- Number of the provider's orders whose status lies in the spec active
set (the claim-side count for the counter-consistency invariant). -/
def specActiveCount (db : DB) (pid : Nat) : Nat :=
  (db.orders.filter (fun o => o.freelancerId == pid && specActiveSet.contains o.status)).length

/-! Path validity through a transition table. -/

/-- chainOk tbl s l: every element of l follows its predecessor (starting
from s) along an edge of tbl. -/
def chainOk (tbl : OrderStatus → List OrderStatus) : OrderStatus → List OrderStatus → Bool
  | _, [] => true
  | s, t :: rest => (tbl s).contains t && chainOk tbl t rest

/-- pathOk tbl l: l is nonempty, starts at PENDING, and each step follows
an edge of tbl. -/
def pathOk (tbl : OrderStatus → List OrderStatus) : List OrderStatus → Bool
  | [] => false
  | s :: rest => (s == OrderStatus.PENDING) && chainOk tbl s rest

/-! Invariants of the database state. -/

/-- Number of the provider's orders whose status is not CANCELLED. -/
def countProv (db : DB) (pid : Nat) : Nat :=
  (db.orders.filter (fun o => o.freelancerId == pid && o.status != OrderStatus.CANCELLED)).length

/-- Amended counter invariant: each profile's activeOrders equals the
number of its non-CANCELLED orders. -/
def counterInv (db : DB) : Prop :=
  ∀ p ∈ db.profiles, p.activeOrders = (countProv db p.id : Int)

instance (db : DB) : Decidable (counterInv db) := by
  unfold counterInv; infer_instance

/-- No order ever carries status CANCELLED (cancelOrder never commits). -/
def noCancelled (db : DB) : Prop :=
  ∀ o ∈ db.orders, o.status ≠ OrderStatus.CANCELLED

instance (db : DB) : Decidable (noCancelled db) := by
  unfold noCancelled; infer_instance

/-- Every order id is below the id allocator. -/
def idsFresh (db : DB) : Prop :=
  ∀ o ∈ db.orders, o.id < db.nextOrderId

instance (db : DB) : Decidable (idsFresh db) := by
  unfold idsFresh; infer_instance

/-- Every history row references an already-allocated order id. -/
def histFresh (db : DB) : Prop :=
  ∀ h ∈ db.history, h.orderId < db.nextOrderId

instance (db : DB) : Decidable (histFresh db) := by
  unfold histFresh; infer_instance

/-- Order ids are pairwise distinct. -/
def idsNodup (db : DB) : Prop :=
  (db.orders.map (fun o => o.id)).Nodup

instance (db : DB) : Decidable (idsNodup db) := by
  unfold idsNodup; infer_instance

/-- Audit invariant: each order's history, in timestamp order, is a valid
path from PENDING through the transition table of updateOrderStatus, and
its last entry is the order's current status. -/
def auditOk (db : DB) : Prop :=
  ∀ o ∈ db.orders,
    pathOk validTransitions (historyOf db o.id) = true ∧
    (historyOf db o.id).getLast? = some o.status

instance (db : DB) : Decidable (auditOk db) := by
  unfold auditOk; infer_instance

/-- Structural well-formedness preserved by every operation. -/
def dbWF (db : DB) : Prop :=
  idsFresh db ∧ histFresh db ∧ idsNodup db ∧ auditOk db

instance (db : DB) : Decidable (dbWF db) := by
  unfold dbWF; infer_instance

/-! Run-level side conditions for the counter invariant. -/

/-- Whether the createOrder transaction for input i commits on db (gig
found and ACTIVE, package resolved, order number fresh). -/
def createCommits (db : DB) (i : CreateInput) : Bool :=
  match findGig db i.gigId with
  | none => false
  | some gig =>
    gig.status == strACTIVE &&
    gig.pricing.any (fun pkg => pkg.1 == i.selectedPackage) &&
    !(db.orders.any (fun o => o.orderNumber == i.orderNumber))

/-- Side condition under which a step keeps the counters consistent: a
committing create must have its fire-and-forget profile update succeed. -/
def stepOk (db : DB) : Op → Bool
  | Op.create i => !(createCommits db i) || i.profUpdOk
  | Op.update _ => true
  | Op.cancel _ => true

/-- Every step of the run satisfies stepOk at its own pre-state. -/
def goodRun (db : DB) : List Op → Bool
  | [] => true
  | op :: rest => stepOk db op && goodRun (applyOp db op) rest

/-! Concrete fixtures used by counterexamples and witnesses: one ACTIVE
gig (id 1, package basic priced 100) owned by freelancer profile 1 whose
user id is 20; client user 10. -/

def pkgBasic : String := "basic"

def gigA : Gig := ⟨1, 1, strACTIVE, [(pkgBasic, 100)], 0, 0⟩

def profA : FreelancerProfile := ⟨1, 20, 0, 0⟩

def dbA : DB := ⟨[gigA], [profA], [], [], [], [], 1⟩

def ordNumA : String := "ORD-20251011-AAAA"

def ordNumB : String := "ORD-20251011-BBBB"

/-- Express create of the basic package by client 10 with every fallible
side effect succeeding. -/
def ciA : CreateInput := ⟨10, 1, pkgBasic, true, ordNumA, true, true, true, true⟩

/-- dbA after the express create: one PENDING order, id 1. -/
def dbB : DB := (createOrder dbA ciA).1

/-- Client 10 moves order 1 from PENDING to CURRENT, side effects fine. -/
def uiA : UpdateInput := ⟨10, 1, OrderStatus.CURRENT, none, true, true⟩

/-- dbB after the PENDING to CURRENT transition. -/
def dbC : DB := (updateOrderStatus dbB uiA).1

/-- The provider profile's activeOrders counter, when the profile exists. -/
def getActive (db : DB) (pid : Nat) : Option Int :=
  (findProfile db pid).map (fun p => p.activeOrders)

/-- Cancel of order 1 by its client, user 10. -/
def cxA : CancelInput := ⟨10, 1, none⟩

/-- A create / transition / cancel run on the fixture state. -/
def opsA : List Op := [Op.create ciA, Op.update uiA, Op.cancel cxA]

def strPAUSED : String := "PAUSED"

/-- A gig that exists but is not orderable. -/
def gigP : Gig := ⟨2, 1, strPAUSED, [(pkgBasic, 100)], 0, 0⟩

def dbP : DB := ⟨[gigP], [profA], [], [], [], [], 1⟩

/-- Create request against the paused gig. -/
def ciP : CreateInput := ⟨10, 2, pkgBasic, false, ordNumB, true, true, true, true⟩

/-- Create request against an absent gig id. -/
def ciMissing : CreateInput := ⟨10, 99, pkgBasic, false, ordNumB, true, true, true, true⟩

/-- Create whose fire-and-forget profile counter update fails. -/
def ciProfFail : CreateInput := ⟨10, 1, pkgBasic, false, ordNumB, true, false, true, true⟩

/-- Create re-using the order number already taken by ciA. -/
def ciDup : CreateInput := ⟨11, 1, pkgBasic, false, ordNumA, true, true, true, true⟩

/-- Transition whose post-commit queue enqueue fails. -/
def uiEnqFail : UpdateInput := ⟨10, 1, OrderStatus.CURRENT, none, true, false⟩

/-- Transition whose in-transaction notification insert fails. -/
def uiNotifFail : UpdateInput := ⟨10, 1, OrderStatus.CURRENT, none, false, true⟩

/-- No two orders share an order number. -/
def numbersNodup (db : DB) : Prop :=
  (db.orders.map (fun o => o.orderNumber)).Nodup

instance (db : DB) : Decidable (numbersNodup db) := by
  unfold numbersNodup; infer_instance

def suffAAAA : String := "AAAA"

/-! Characterization lemmas for the three operations. -/

theorem cancelOrder_fst (db : DB) (i : CancelInput) : (cancelOrder db i).1 = db := by
  unfold cancelOrder
  rcases findOrder db i.orderId with _ | order
  · rfl
  · dsimp only
    split
    · rfl
    · split <;> rfl

theorem cancelOrder_no_ok (db : DB) (i : CancelInput) (o : Order) :
    (cancelOrder db i).2 ≠ Except.ok o := by
  unfold cancelOrder
  rcases findOrder db i.orderId with _ | order
  · simp
  · dsimp only
    split
    · simp
    · split <;> simp

theorem findOrder_mem (db : DB) (oid : Nat) (o : Order) (h : findOrder db oid = some o) :
    o ∈ db.orders ∧ o.id = oid := by
  unfold findOrder at h
  refine ⟨List.mem_of_find?_eq_some h, ?_⟩
  have := List.find?_some h
  simpa using this

theorem createPostCommit_orders (d : DB) (i : CreateInput) (oid fu : Nat) :
    (createPostCommit d i oid fu).orders = d.orders := by
  unfold createPostCommit
  by_cases h1 : i.enqOk <;> by_cases h2 : i.notifOk <;> simp [h1, h2]

theorem createPostCommit_profiles (d : DB) (i : CreateInput) (oid fu : Nat) :
    (createPostCommit d i oid fu).profiles = d.profiles := by
  unfold createPostCommit
  by_cases h1 : i.enqOk <;> by_cases h2 : i.notifOk <;> simp [h1, h2]

theorem createPostCommit_history (d : DB) (i : CreateInput) (oid fu : Nat) :
    (createPostCommit d i oid fu).history = d.history := by
  unfold createPostCommit
  by_cases h1 : i.enqOk <;> by_cases h2 : i.notifOk <;> simp [h1, h2]

theorem createPostCommit_nextOrderId (d : DB) (i : CreateInput) (oid fu : Nat) :
    (createPostCommit d i oid fu).nextOrderId = d.nextOrderId := by
  unfold createPostCommit
  by_cases h1 : i.enqOk <;> by_cases h2 : i.notifOk <;> simp [h1, h2]

theorem createPostCommit_gigs (d : DB) (i : CreateInput) (oid fu : Nat) :
    (createPostCommit d i oid fu).gigs = d.gigs := by
  unfold createPostCommit
  by_cases h1 : i.enqOk <;> by_cases h2 : i.notifOk <;> simp [h1, h2]

theorem createCommitDB_gigs (db : DB) (i : CreateInput) (gig : Gig) (price : Rat) :
    (createCommitDB db i gig price).gigs =
      if i.gigUpdOk then db.gigs.map (bumpGig gig.id) else db.gigs := by
  unfold createCommitDB
  by_cases h1 : i.gigUpdOk <;> by_cases h2 : i.profUpdOk <;> simp [h1, h2]

theorem createCommitDB_orders (db : DB) (i : CreateInput) (gig : Gig) (price : Rat) :
    (createCommitDB db i gig price).orders = db.orders ++ [mkNewOrder db i gig price] := by
  unfold createCommitDB
  by_cases h1 : i.gigUpdOk <;> by_cases h2 : i.profUpdOk <;> simp [h1, h2]

theorem createCommitDB_history (db : DB) (i : CreateInput) (gig : Gig) (price : Rat) :
    (createCommitDB db i gig price).history =
      db.history ++ [⟨db.nextOrderId, OrderStatus.PENDING, some i.clientId⟩] := by
  unfold createCommitDB mkNewOrder
  by_cases h1 : i.gigUpdOk <;> by_cases h2 : i.profUpdOk <;> simp [h1, h2]

theorem createCommitDB_nextOrderId (db : DB) (i : CreateInput) (gig : Gig) (price : Rat) :
    (createCommitDB db i gig price).nextOrderId = db.nextOrderId + 1 := by
  unfold createCommitDB
  by_cases h1 : i.gigUpdOk <;> by_cases h2 : i.profUpdOk <;> simp [h1, h2]

theorem createCommitDB_profiles (db : DB) (i : CreateInput) (gig : Gig) (price : Rat) :
    (createCommitDB db i gig price).profiles =
      if i.profUpdOk then db.profiles.map (bumpProfile gig.freelancerId) else db.profiles := by
  unfold createCommitDB
  by_cases h1 : i.gigUpdOk <;> by_cases h2 : i.profUpdOk <;> simp [h1, h2]

/-- Full case analysis of createOrder: either the transaction does not
commit and the database is untouched (and no order is returned), or it
commits and the orders, history, gigs, profile, and allocator components
change as described, with any returned order being the inserted row. -/
theorem createOrder_cases (db : DB) (i : CreateInput) :
    ((createOrder db i).1 = db ∧ createCommits db i = false ∧
      (∀ o, (createOrder db i).2 ≠ Except.ok o)) ∨
    (∃ gig pkg, findGig db i.gigId = some gig ∧
      gig.pricing.find? (fun q => q.1 == i.selectedPackage) = some pkg ∧
      createCommits db i = true ∧
      (createOrder db i).1.orders = db.orders ++ [mkNewOrder db i gig pkg.2] ∧
      (createOrder db i).1.history =
        db.history ++ [⟨db.nextOrderId, OrderStatus.PENDING, some i.clientId⟩] ∧
      (createOrder db i).1.nextOrderId = db.nextOrderId + 1 ∧
      (createOrder db i).1.profiles =
        (if i.profUpdOk then db.profiles.map (bumpProfile gig.freelancerId) else db.profiles) ∧
      (createOrder db i).1.gigs =
        (if i.gigUpdOk then db.gigs.map (bumpGig gig.id) else db.gigs) ∧
      (∀ o, (createOrder db i).2 = Except.ok o → o = mkNewOrder db i gig pkg.2)) := by
  unfold createOrder createCommits
  rcases hg : findGig db i.gigId with _ | gig
  · refine Or.inl ⟨rfl, rfl, ?_⟩
    intro o
    simp
  · dsimp only
    by_cases hs : gig.status != strACTIVE
    · refine Or.inl ⟨?_, ?_, ?_⟩
      · simp [hs]
      · simp only [bne_iff_ne, ne_eq] at hs
        simp [hs]
      · intro o
        simp [hs]
    · simp only [Bool.not_eq_true, bne_eq_false_iff_eq] at hs
      rcases hp : gig.pricing.find? (fun q => q.1 == i.selectedPackage) with _ | pkg
      · refine Or.inl ⟨?_, ?_, ?_⟩
        · simp [hs, hp]
        · have hany : gig.pricing.any (fun q => q.1 == i.selectedPackage) = false := by
            rw [List.any_eq_false]
            intro x hx
            have := List.find?_eq_none.mp hp x hx
            simpa using this
          simp [hany]
        · intro o
          simp [hs, hp]
      · by_cases hc : db.orders.any (fun o => o.orderNumber == i.orderNumber)
        · refine Or.inl ⟨?_, ?_, ?_⟩
          · simp [hs, hp, hc]
          · simp [hc]
          · intro o
            simp [hs, hp, hc]
        · right
          refine ⟨gig, pkg, rfl, hp, ?_, ?_⟩
          · have hany : gig.pricing.any (fun q => q.1 == i.selectedPackage) = true := by
              rw [List.any_eq_true]
              refine ⟨pkg, List.mem_of_find?_eq_some hp, ?_⟩
              have := List.find?_some hp
              simpa using this
            simp [hs, hany, hc]
          · simp only [hp]
            rcases hf : (findProfile (createCommitDB db i gig pkg.2) gig.freelancerId).map
                (fun p => p.userId) with _ | fu <;>
              refine ⟨?_, ?_, ?_, ?_, ?_, ?_⟩ <;>
              simp [hs, hf, hc, createPostCommit_orders, createPostCommit_history,
                createPostCommit_nextOrderId, createPostCommit_profiles, createPostCommit_gigs,
                createCommitDB_orders, createCommitDB_history, createCommitDB_nextOrderId,
                createCommitDB_profiles, createCommitDB_gigs, mkNewOrder]

/-- Full case analysis of updateOrderStatus: either nothing committed and
the database is untouched, or the transaction committed (order found,
caller authorized, edge in the table, in-transaction notification fine)
and the orders, history, profile, and allocator components change as
described, independently of whether the post-commit enqueue succeeded. -/
theorem updateOrderStatus_cases (db : DB) (i : UpdateInput) :
    (updateOrderStatus db i).1 = db ∨
    (∃ order, findOrder db i.orderId = some order ∧
      (validTransitions order.status).contains i.status = true ∧
      (updateOrderStatus db i).1.orders =
        db.orders.map (fun o => if o.id == order.id then applyStatusUpd i o else o) ∧
      (updateOrderStatus db i).1.history = db.history ++ [⟨order.id, i.status, some i.userId⟩] ∧
      (updateOrderStatus db i).1.profiles = db.profiles ∧
      (updateOrderStatus db i).1.nextOrderId = db.nextOrderId) := by
  unfold updateOrderStatus
  rcases ho : findOrder db i.orderId with _ | order
  · exact Or.inl rfl
  · dsimp only
    split
    · exact Or.inl rfl
    · split
      · exact Or.inl rfl
      · rename_i hcontains
        split
        · exact Or.inl rfl
        · rcases hf : Option.map (fun p => p.userId) (findProfile db order.freelancerId)
              with _ | fu <;> simp only [hf]
          · exact Or.inl trivial
          · right
            refine ⟨order, rfl, ?_, ?_⟩
            · simpa using hcontains
            · split <;> simp

/-! Preservation of the (amended) counter invariant. -/

theorem validTransitions_no_CANCELLED (s t : OrderStatus)
    (h : (validTransitions s).contains t = true) : t ≠ OrderStatus.CANCELLED := by
  cases s <;> cases t <;> simp_all [validTransitions]

theorem bumpProfile_id (fid : Nat) (p : FreelancerProfile) : (bumpProfile fid p).id = p.id := by
  unfold bumpProfile
  split <;> rfl

theorem counter_step (db : DB) (op : Op)
    (hnc : noCancelled db) (hci : counterInv db) (hok : stepOk db op = true) :
    noCancelled (applyOp db op) ∧ counterInv (applyOp db op) := by
  cases op with
  | create i =>
    have happly : applyOp db (Op.create i) = (createOrder db i).1 := rfl
    rcases createOrder_cases db i with ⟨hfst, _, _⟩ | ⟨gig, pkg, hg, hp, hcommit, ho, hh, hn, hprof, hgigs, hsnd⟩
    · rw [happly, hfst]
      exact ⟨hnc, hci⟩
    · have hpu : i.profUpdOk = true := by
        simp [stepOk, hcommit] at hok
        exact hok
      rw [hpu] at hprof
      simp only [if_true] at hprof
      constructor
      · intro o hmem
        rw [happly, ho] at hmem
        rcases List.mem_append.mp hmem with hold | hnew
        · exact hnc o hold
        · have : o = mkNewOrder db i gig pkg.2 := by simpa using hnew
          rw [this]
          simp [mkNewOrder]
      · intro p hmem
        rw [happly, hprof] at hmem
        rcases List.mem_map.mp hmem with ⟨q, hq, hbump⟩
        have hcount : countProv (applyOp db (Op.create i)) p.id =
            countProv db p.id + (if gig.freelancerId == p.id then 1 else 0) := by
          unfold countProv
          rw [happly, ho, List.filter_append, List.length_append]
          congr 1
          by_cases hfid : (gig.freelancerId == p.id) = true <;> simp [mkNewOrder, hfid]
        rw [hcount]
        have hid : p.id = q.id := by rw [← hbump, bumpProfile_id]
        have hciq := hci q hq
        by_cases hqf : q.id = gig.freelancerId
        · have hbump2 : p =
              { q with orderCount := q.orderCount + 1, activeOrders := q.activeOrders + 1 } := by
            rw [← hbump]
            simp [bumpProfile, hqf]
          have hfid : (gig.freelancerId == p.id) = true := by simp [hid, hqf]
          rw [hfid, if_pos rfl, hbump2]
          show q.activeOrders + 1 = ((countProv db q.id + 1 : Nat) : Int)
          push_cast
          rw [hciq]
        · have hbump2 : p = q := by
            rw [← hbump]
            simp [bumpProfile, hqf]
          have hfid : (gig.freelancerId == p.id) = false := by
            simp only [hid, beq_eq_false_iff_ne, ne_eq]
            intro hcontra
            exact hqf hcontra.symm
          rw [hfid]
          simp only [Bool.false_eq_true, if_false, Nat.add_zero]
          rw [hbump2]
          exact hciq
  | update i =>
    have happly : applyOp db (Op.update i) = (updateOrderStatus db i).1 := rfl
    rcases updateOrderStatus_cases db i with hfst | ⟨order, ho, hcont, horders, hh, hprof, hn⟩
    · rw [happly, hfst]
      exact ⟨hnc, hci⟩
    · have hnewstat : i.status ≠ OrderStatus.CANCELLED :=
        validTransitions_no_CANCELLED order.status i.status hcont
      constructor
      · intro o hmem
        rw [happly, horders] at hmem
        rcases List.mem_map.mp hmem with ⟨x, hx, hfx⟩
        by_cases hxid : x.id == order.id
        · rw [if_pos hxid] at hfx
          rw [← hfx]
          simpa [applyStatusUpd] using hnewstat
        · rw [if_neg hxid] at hfx
          rw [← hfx]
          exact hnc x hx
      · intro p hmem
        rw [happly, hprof] at hmem
        have hcount : countProv (applyOp db (Op.update i)) p.id = countProv db p.id := by
          unfold countProv
          rw [happly, horders, List.filter_map, List.length_map]
          congr 1
          apply List.filter_congr
          intro x hx
          by_cases hxid : x.id == order.id
          · simp only [Function.comp_apply, if_pos hxid]
            have h1 : (applyStatusUpd i x).freelancerId = x.freelancerId := rfl
            have h2 : (applyStatusUpd i x).status = i.status := rfl
            rw [h1, h2]
            have h3 : (i.status != OrderStatus.CANCELLED) = true := by simpa using hnewstat
            have h4 : (x.status != OrderStatus.CANCELLED) = true := by simpa using hnc x hx
            rw [h3, h4]
          · simp only [Function.comp_apply, if_neg hxid]
        rw [hcount]
        exact hci p hmem
  | cancel i =>
    have happly : applyOp db (Op.cancel i) = (cancelOrder db i).1 := rfl
    rw [happly, cancelOrder_fst]
    exact ⟨hnc, hci⟩

theorem counter_run (db : DB) (ops : List Op)
    (hnc : noCancelled db) (hci : counterInv db) (hg : goodRun db ops = true) :
    noCancelled (applyRun db ops) ∧ counterInv (applyRun db ops) := by
  induction ops generalizing db with
  | nil => exact ⟨hnc, hci⟩
  | cons op rest ih =>
    rw [goodRun, Bool.and_eq_true] at hg
    obtain ⟨hstep, hrest⟩ := hg
    obtain ⟨hnc2, hci2⟩ := counter_step db op hnc hci hstep
    exact ih (applyOp db op) hnc2 hci2 hrest

/-! Preservation of the audit-trail invariant. -/

theorem chainOk_concat (tbl : OrderStatus → List OrderStatus) (a : OrderStatus)
    (l : List OrderStatus) (s t : OrderStatus) (hc : chainOk tbl a l = true)
    (hl : (a :: l).getLast? = some s) (ht : (tbl s).contains t = true) :
    chainOk tbl a (l ++ [t]) = true := by
  induction l generalizing a with
  | nil =>
    have hs : a = s := by simpa using hl
    subst hs
    simpa [chainOk] using ht
  | cons b rest ih =>
    rw [chainOk, Bool.and_eq_true] at hc
    obtain ⟨hab, hbrest⟩ := hc
    have hl2 : (b :: rest).getLast? = some s := by
      rw [List.getLast?_cons_cons] at hl
      exact hl
    have := ih b hbrest hl2
    rw [List.cons_append, chainOk, Bool.and_eq_true]
    exact ⟨hab, this⟩

theorem pathOk_concat (tbl : OrderStatus → List OrderStatus) (l : List OrderStatus)
    (s t : OrderStatus) (hp : pathOk tbl l = true) (hl : l.getLast? = some s)
    (ht : (tbl s).contains t = true) : pathOk tbl (l ++ [t]) = true := by
  cases l with
  | nil => simp [pathOk] at hp
  | cons a rest =>
    rw [pathOk, Bool.and_eq_true] at hp
    obtain ⟨ha, hchain⟩ := hp
    rw [List.cons_append, pathOk, Bool.and_eq_true]
    exact ⟨ha, chainOk_concat tbl a rest s t hchain hl ht⟩

theorem historyOf_append (db d2 : DB) (r : StatusHistoryRow) (oid : Nat)
    (h : d2.history = db.history ++ [r]) :
    historyOf d2 oid = historyOf db oid ++ (if r.orderId == oid then [r.status] else []) := by
  unfold historyOf
  rw [h, List.filter_append, List.map_append]
  congr 1
  by_cases hr : (r.orderId == oid) = true <;> simp [hr]

theorem historyOf_fresh_nil (db : DB) (hf : histFresh db) :
    historyOf db db.nextOrderId = [] := by
  unfold historyOf
  rw [List.filter_eq_nil_iff.mpr, List.map_nil]
  intro row hrow
  have := hf row hrow
  simp only [beq_iff_eq]
  omega

theorem dbWF_step (db : DB) (op : Op) (h : dbWF db) : dbWF (applyOp db op) := by
  obtain ⟨hif, hhf, hnd, hao⟩ := h
  cases op with
  | create i =>
    have happly : applyOp db (Op.create i) = (createOrder db i).1 := rfl
    rcases createOrder_cases db i with ⟨hfst, _, _⟩ | ⟨gig, pkg, hg, hp, hcommit, ho, hh, hn, hprof, hgigs, hsnd⟩
    · rw [happly, hfst]
      exact ⟨hif, hhf, hnd, hao⟩
    · have hnew_id : (mkNewOrder db i gig pkg.2).id = db.nextOrderId := rfl
      refine ⟨?_, ?_, ?_, ?_⟩
      · intro o hmem
        rw [happly, ho] at hmem
        rw [happly, hn]
        rcases List.mem_append.mp hmem with hold | hnew
        · exact Nat.lt_trans (hif o hold) (Nat.lt_succ_self _)
        · have : o = mkNewOrder db i gig pkg.2 := by simpa using hnew
          rw [this, hnew_id]
          exact Nat.lt_succ_self _
      · intro row hmem
        rw [happly, hh] at hmem
        rw [happly, hn]
        rcases List.mem_append.mp hmem with hold | hnew
        · exact Nat.lt_trans (hhf row hold) (Nat.lt_succ_self _)
        · have : row = ⟨db.nextOrderId, OrderStatus.PENDING, some i.clientId⟩ := by
            simpa using hnew
          rw [this]
          exact Nat.lt_succ_self _
      · unfold idsNodup at hnd ⊢
        rw [happly, ho, List.map_append, List.nodup_append]
        refine ⟨hnd, by simp, ?_⟩
        intro x hx hy
        simp only [List.map_cons, List.map_nil, List.mem_cons, List.not_mem_nil, or_false] at hy
        rcases List.mem_map.mp hx with ⟨o, hmem, hoid⟩
        rw [hy, hnew_id] at hoid
        have := hif o hmem
        omega
      · intro o hmem
        rw [happly, ho] at hmem
        have hrow : (applyOp db (Op.create i)).history =
            db.history ++ [⟨db.nextOrderId, OrderStatus.PENDING, some i.clientId⟩] := by
          rw [happly, hh]
        rcases List.mem_append.mp hmem with hold | hnew
        · have hne : (db.nextOrderId == o.id) = false := by
            have := hif o hold
            simp only [beq_eq_false_iff_ne, ne_eq]
            omega
          have hhist := historyOf_append db (applyOp db (Op.create i))
            ⟨db.nextOrderId, OrderStatus.PENDING, some i.clientId⟩ o.id hrow
          rw [hhist]
          simp only [hne, Bool.false_eq_true, if_false, List.append_nil]
          exact hao o hold
        · have hthis : o = mkNewOrder db i gig pkg.2 := by simpa using hnew
          have hhist := historyOf_append db (applyOp db (Op.create i))
            ⟨db.nextOrderId, OrderStatus.PENDING, some i.clientId⟩ o.id hrow
          rw [hthis, hnew_id] at hhist ⊢
          rw [hhist, historyOf_fresh_nil db hhf]
          simp [mkNewOrder, pathOk, chainOk]
  | update i =>
    have happly : applyOp db (Op.update i) = (updateOrderStatus db i).1 := rfl
    rcases updateOrderStatus_cases db i with hfst | ⟨order, ho, hcont, horders, hh, hprof, hn⟩
    · rw [happly, hfst]
      exact ⟨hif, hhf, hnd, hao⟩
    · obtain ⟨horder_mem, horder_id⟩ := findOrder_mem db i.orderId order ho
      have hids : ∀ x : Order,
          (if x.id == order.id then applyStatusUpd i x else x).id = x.id := by
        intro x
        split <;> rfl
      refine ⟨?_, ?_, ?_, ?_⟩
      · intro o hmem
        rw [happly, horders] at hmem
        rw [happly, hn]
        rcases List.mem_map.mp hmem with ⟨x, hx, hfx⟩
        rw [← hfx, hids]
        exact hif x hx
      · intro row hmem
        rw [happly, hh] at hmem
        rw [happly, hn]
        rcases List.mem_append.mp hmem with hold | hnew
        · exact hhf row hold
        · have : row = ⟨order.id, i.status, some i.userId⟩ := by simpa using hnew
          rw [this]
          exact hif order horder_mem
      · unfold idsNodup at hnd ⊢
        rw [happly, horders, List.map_map]
        have : ((fun o : Order => o.id) ∘ fun o =>
            if o.id == order.id then applyStatusUpd i o else o) = fun o : Order => o.id := by
          funext x
          simp only [Function.comp_apply]
          exact hids x
        rw [this]
        exact hnd
      · intro o hmem
        rw [happly, horders] at hmem
        have hrow : (applyOp db (Op.update i)).history =
            db.history ++ [⟨order.id, i.status, some i.userId⟩] := by
          rw [happly, hh]
        have hhist := historyOf_append db (applyOp db (Op.update i))
          ⟨order.id, i.status, some i.userId⟩ o.id hrow
        rcases List.mem_map.mp hmem with ⟨x, hx, hfx⟩
        by_cases hxid : (x.id == order.id) = true
        · have hxeq : x = order := by
            exact List.inj_on_of_nodup_map hnd hx horder_mem (by simpa using hxid)
          rw [if_pos hxid] at hfx
          have hoid : o.id = order.id := by
            rw [← hfx, hxeq]
            rfl
          rw [hoid] at hhist ⊢
          rw [hhist]
          simp only [beq_self_eq_true, if_true]
          obtain ⟨hpath, hlast⟩ := hao order horder_mem
          constructor
          · exact pathOk_concat validTransitions (historyOf db order.id) order.status i.status
              hpath hlast hcont
          · rw [List.getLast?_concat]
            rw [← hfx, hxeq]
            rfl
        · rw [if_neg hxid] at hfx
          have hne : (order.id == o.id) = false := by
            rw [← hfx]
            simp only [beq_eq_false_iff_ne, ne_eq]
            intro hcontra
            rw [Bool.not_eq_true, beq_eq_false_iff_ne] at hxid
            exact hxid hcontra.symm
          rw [hhist]
          simp only [hne, Bool.false_eq_true, if_false, List.append_nil]
          rw [← hfx]
          exact hao x hx
  | cancel i =>
    have happly : applyOp db (Op.cancel i) = (cancelOrder db i).1 := rfl
    rw [happly, cancelOrder_fst]
    exact ⟨hif, hhf, hnd, hao⟩

theorem dbWF_run (db : DB) (ops : List Op) (h : dbWF db) : dbWF (applyRun db ops) := by
  induction ops generalizing db with
  | nil => exact h
  | cons op rest ih => exact ih (applyOp db op) (dbWF_step db op h)

/-- Each operation appends at most one audit row and never rewrites or
deletes existing rows. -/
theorem history_step (db : DB) (op : Op) :
    (applyOp db op).history = db.history ∨
    ∃ r, (applyOp db op).history = db.history ++ [r] := by
  cases op with
  | create i =>
    have happly : applyOp db (Op.create i) = (createOrder db i).1 := rfl
    rcases createOrder_cases db i with ⟨hfst, _, _⟩ | ⟨gig, pkg, hg, hp, hcommit, ho, hh, hn, hprof, hgigs, hsnd⟩
    · rw [happly, hfst]
      exact Or.inl rfl
    · rw [happly]
      exact Or.inr ⟨_, hh⟩
  | update i =>
    have happly : applyOp db (Op.update i) = (updateOrderStatus db i).1 := rfl
    rcases updateOrderStatus_cases db i with hfst | ⟨order, ho, hcont, horders, hh, hprof, hn⟩
    · rw [happly, hfst]
      exact Or.inl rfl
    · rw [happly]
      exact Or.inr ⟨_, hh⟩
  | cancel i =>
    have happly : applyOp db (Op.cancel i) = (cancelOrder db i).1 := rfl
    rw [happly, cancelOrder_fst]
    exact Or.inl rfl

/-- Over a whole run the audit table only grows by appending. -/
theorem history_run_append (db : DB) (ops : List Op) :
    ∃ t, (applyRun db ops).history = db.history ++ t := by
  induction ops generalizing db with
  | nil => exact ⟨[], by simp [applyRun]⟩
  | cons op rest ih =>
    obtain ⟨t2, ht2⟩ := ih (applyOp db op)
    rcases history_step db op with hsame | ⟨r, hr⟩
    · refine ⟨t2, ?_⟩
      rw [applyRun, ht2, hsame]
    · refine ⟨[r] ++ t2, ?_⟩
      rw [applyRun, ht2, hr, List.append_assoc]

/-! Claim theorems. -/

/-- Claim C1, counterexample: after the single create operation of opsA,
the provider's activeOrders counter is 1, while the number of the
provider's orders whose status lies in the active set
(Accepted, InProgress, Delivered, Disputed) is 0 — createOrder increments
activeOrders while the order is still PENDING, so the claimed equality
fails after this one-operation sequence. -/
theorem C1_counterexample :
    getActive (applyRun dbA [Op.create ciA]) 1 = some 1 ∧
    specActiveCount (applyRun dbA [Op.create ciA]) 1 = 0 := by
  constructor <;> decide

/-- Claim C1, amended: after any sequence of create / transition / cancel
operations in which every committing create has its fire-and-forget
profile update succeed, each provider's activeOrders counter equals the
number of that provider's orders whose status is not CANCELLED (createOrder
counts the order immediately, while it is still PENDING; transitions never
touch the counter; cancelOrder never commits). -/
theorem C1_amended (db : DB) (ops : List Op) (hnc : noCancelled db)
    (hci : counterInv db) (hg : goodRun db ops = true) :
    counterInv (applyRun db ops) :=
  (counter_run db ops hnc hci hg).2

theorem C1_amended_witness :
    noCancelled dbA ∧ counterInv dbA ∧ goodRun dbA opsA = true ∧
      counterInv (applyRun dbA opsA) :=
  ⟨by decide, by decide, by decide, C1_amended dbA opsA (by decide) (by decide) (by decide)⟩

/-- Claim C2, counterexample: after create followed by the legal code
transition PENDING to CURRENT, order 1's audit rows in timestamp order are
[PENDING, CURRENT], which is not a valid path through the spec state
machine (PENDING to CURRENT is not one of its edges), refuting the claim
that histories always follow that machine. -/
theorem C2_counterexample :
    historyOf (applyRun dbA [Op.create ciA, Op.update uiA]) 1 =
      [OrderStatus.PENDING, OrderStatus.CURRENT] ∧
    pathOk specTransition [OrderStatus.PENDING, OrderStatus.CURRENT] = false := by
  constructor <;> decide

/-- Claim C2, amended: histories follow the transition table that
updateOrderStatus actually enforces. After any operation sequence from a
well-formed state, each order's history read in timestamp order is a valid
path through validTransitions starting at PENDING and ending at the
order's current status; the audit table only ever grows by appending; and
each single operation appends at most one row. -/
theorem C2_amended (db : DB) (ops : List Op) (h : dbWF db) :
    dbWF (applyRun db ops) ∧
    (∃ t, (applyRun db ops).history = db.history ++ t) ∧
    (∀ (d : DB) (op : Op), (applyOp d op).history = d.history ∨
      ∃ r, (applyOp d op).history = d.history ++ [r]) :=
  ⟨dbWF_run db ops h, history_run_append db ops, fun d op => history_step d op⟩

theorem C2_amended_witness :
    dbWF dbA ∧ dbWF (applyRun dbA opsA) ∧
      (∃ t, (applyRun dbA opsA).history = dbA.history ++ t) :=
  ⟨by decide, (C2_amended dbA opsA (by decide)).1, (C2_amended dbA opsA (by decide)).2.1⟩

/-- Claim C3, counterexample: the express create of the 100-priced package
does yield total price 150, priority fee 50, and a single PENDING audit
row, but the provider's active-order count moves from 0 to 1 rather than
staying unchanged, because createOrder increments activeOrders inside the
creation transaction. -/
theorem C3_counterexample :
    (∃ o, (createOrder dbA ciA).2 = Except.ok o ∧ o.totalPrice = 150 ∧
      o.priorityFee = some 50 ∧ o.status = OrderStatus.PENDING) ∧
    historyOf dbB 1 = [OrderStatus.PENDING] ∧
    getActive dbA 1 = some 0 ∧ getActive dbB 1 = some 1 := by
  refine ⟨⟨mkNewOrder dbA ciA gigA 100, rfl, ?_, ?_, rfl⟩, by decide, by decide, by decide⟩
  · show (if true then (100 : Rat) * (3 / 2 : Rat) else (100 : Rat)) = 150
    norm_num
  · show (if true then some ((100 : Rat) * (1 / 2 : Rat)) else none) = some (50 : Rat)
    norm_num

theorem bump_pred_comp (fid : Nat) :
    ((fun q : FreelancerProfile => q.id == fid) ∘ bumpProfile fid) =
      fun q : FreelancerProfile => q.id == fid := by
  funext q
  simp [Function.comp_apply, bumpProfile_id]

theorem findProfile_bumped (l : List FreelancerProfile) (fid : Nat) (p : FreelancerProfile)
    (h : l.find? (fun q => q.id == fid) = some p) :
    (l.map (bumpProfile fid)).find? (fun q => q.id == fid) =
      some (bumpProfile fid p) := by
  rw [List.find?_map, bump_pred_comp, h]
  rfl

theorem createOrder_snd_ok (db : DB) (i : CreateInput) (gig : Gig) (pkg : String × Rat)
    (hg : findGig db i.gigId = some gig)
    (hp : gig.pricing.find? (fun q => q.1 == i.selectedPackage) = some pkg)
    (hcommit : createCommits db i = true)
    (hfu : (findProfile (createCommitDB db i gig pkg.2) gig.freelancerId).isSome = true) :
    (createOrder db i).2 = Except.ok (mkNewOrder db i gig pkg.2) := by
  unfold createCommits at hcommit
  rw [hg] at hcommit
  simp only [Bool.and_eq_true, beq_iff_eq, Bool.not_eq_eq_eq_not, Bool.not_true] at hcommit
  obtain ⟨⟨hs, hany⟩, hc⟩ := hcommit
  unfold createOrder
  rw [hg]
  dsimp only
  rcases hopt : findProfile (createCommitDB db i gig pkg.2) gig.freelancerId with _ | q
  · rw [hopt] at hfu
    simp at hfu
  · simp [hs, hp, hc, hopt]

/-- Claim C3, amended: an express create of a package priced P yields an
order with total price P times 3/2, priority fee P times 1/2, status
PENDING, a single PENDING audit row — and, contrary to the claim,
increments the provider's activeOrders counter by one rather than leaving
it unchanged. -/
theorem C3_amended (db : DB) (i : CreateInput) (gig : Gig) (pkg : String × Rat)
    (p : FreelancerProfile)
    (hw : dbWF db)
    (hg : findGig db i.gigId = some gig)
    (hp : gig.pricing.find? (fun q => q.1 == i.selectedPackage) = some pkg)
    (hcommit : createCommits db i = true)
    (hexp : i.expressDelivery = true)
    (hpu : i.profUpdOk = true)
    (hprof : findProfile db gig.freelancerId = some p) :
    (createOrder db i).2 = Except.ok (mkNewOrder db i gig pkg.2) ∧
    (mkNewOrder db i gig pkg.2).totalPrice = pkg.2 * (3 / 2 : Rat) ∧
    (mkNewOrder db i gig pkg.2).priorityFee = some (pkg.2 * (1 / 2 : Rat)) ∧
    (mkNewOrder db i gig pkg.2).status = OrderStatus.PENDING ∧
    historyOf (createOrder db i).1 (mkNewOrder db i gig pkg.2).id = [OrderStatus.PENDING] ∧
    getActive (createOrder db i).1 gig.freelancerId = some (p.activeOrders + 1) := by
  obtain ⟨hif, hhf, hnd, hao⟩ := hw
  have hfu : (findProfile (createCommitDB db i gig pkg.2) gig.freelancerId).isSome = true := by
    unfold findProfile at hprof ⊢
    rw [createCommitDB_profiles, hpu, if_pos rfl, findProfile_bumped db.profiles _ p hprof]
    rfl
  have hok := createOrder_snd_ok db i gig pkg hg hp hcommit hfu
  rcases createOrder_cases db i with ⟨_, hfalse, _⟩ | ⟨gig2, pkg2, hg2, hp2, _, ho2, hh2, hn2, hprof2, hgigs2, hsnd2⟩
  · rw [hcommit] at hfalse
    exact absurd hfalse (by simp)
  · have hgeq : gig2 = gig := by
      rw [hg] at hg2
      exact (Option.some_inj.mp hg2).symm
    subst hgeq
    have hpeq : pkg2 = pkg := by
      rw [hp] at hp2
      exact (Option.some_inj.mp hp2).symm
    subst hpeq
    refine ⟨hok, ?_, ?_, rfl, ?_, ?_⟩
    · simp [mkNewOrder, hexp]
    · simp [mkNewOrder, hexp]
    · have hhist := historyOf_append db (createOrder db i).1
        ⟨db.nextOrderId, OrderStatus.PENDING, some i.clientId⟩ db.nextOrderId hh2
      show historyOf (createOrder db i).1 db.nextOrderId = [OrderStatus.PENDING]
      rw [hhist, historyOf_fresh_nil db hhf]
      simp
    · rw [hpu] at hprof2
      simp only [if_true] at hprof2
      unfold getActive findProfile
      unfold findProfile at hprof
      rw [hprof2, findProfile_bumped db.profiles _ p hprof]
      have hpid := List.find?_some hprof
      simp only [beq_iff_eq] at hpid
      simp [bumpProfile, hpid]

theorem C3_amended_witness :
    (createOrder dbA ciA).2 = Except.ok (mkNewOrder dbA ciA gigA 100) ∧
    getActive (createOrder dbA ciA).1 1 = some (profA.activeOrders + 1) := by
  have h := C3_amended dbA ciA gigA (pkgBasic, 100) profA (by decide) rfl rfl
    (by decide) rfl rfl rfl
  exact ⟨h.1, h.2.2.2.2.2⟩

theorem updateOrderStatus_profiles_eq (db : DB) (i : UpdateInput) :
    (updateOrderStatus db i).1.profiles = db.profiles := by
  rcases updateOrderStatus_cases db i with hfst | ⟨order, _, _, _, _, hprof, _⟩
  · rw [hfst]
  · exact hprof

theorem updateOrderStatus_gigs_eq (db : DB) (i : UpdateInput) :
    (updateOrderStatus db i).1.gigs = db.gigs := by
  unfold updateOrderStatus
  rcases findOrder db i.orderId with _ | order
  · rfl
  · dsimp only
    split
    · rfl
    · split
      · rfl
      · split
        · rfl
        · rcases hf : Option.map (fun p => p.userId) (findProfile db order.freelancerId)
              with _ | fu <;> simp only [hf]
          split <;> rfl

/-- Claim C4, counterexample: on the fixture state with a PENDING order,
the claimed Pending-to-Accepted edge is rejected as an invalid transition,
while the edge the code does accept, PENDING to CURRENT, commits without
applying any delta to the provider's active-order counter (it stays at the
value 1 it received at creation). -/
theorem C4_counterexample :
    (updateOrderStatus dbB ⟨10, 1, OrderStatus.ACCEPTED, none, true, true⟩).2 =
      Except.error errInvalidTransition ∧
    (∃ o, (updateOrderStatus dbB uiA).2 = Except.ok o ∧ o.status = OrderStatus.CURRENT) ∧
    getActive dbB 1 = some 1 ∧ getActive dbC 1 = some 1 := by
  refine ⟨rfl, ⟨applyStatusUpd uiA (mkNewOrder dbA ciA gigA 100), rfl, rfl⟩, by decide, by decide⟩

/-- Claim C4, amended: updateOrderStatus never applies any counter delta:
the freelancer profiles (and gig aggregates) after any transition call are
exactly those before it, whether or not the transition commits; the only
activeOrders changes in the system are the increment inside createOrder
and the (never-committing) decrement written in cancelOrder. -/
theorem C4_amended (db : DB) (i : UpdateInput) :
    (updateOrderStatus db i).1.profiles = db.profiles ∧
    (updateOrderStatus db i).1.gigs = db.gigs :=
  ⟨updateOrderStatus_profiles_eq db i, updateOrderStatus_gigs_eq db i⟩

theorem C4_amended_witness :
    (updateOrderStatus dbB uiA).1.profiles = dbB.profiles :=
  (C4_amended dbB uiA).1

/-- Claim C5, counterexample: Pending to Accepted is an edge of the spec
table but the code rejects it with the invalid-transition error (leaving
the database untouched); conversely Current to Completed is accepted by
the code but absent from the spec table. The code transition relation is
not the one the claim states. -/
theorem C5_counterexample :
    (specTransition OrderStatus.PENDING).contains OrderStatus.ACCEPTED = true ∧
    (validTransitions OrderStatus.PENDING).contains OrderStatus.ACCEPTED = false ∧
    (validTransitions OrderStatus.CURRENT).contains OrderStatus.COMPLETED = true ∧
    (specTransition OrderStatus.CURRENT).contains OrderStatus.COMPLETED = false ∧
    (updateOrderStatus dbB ⟨10, 1, OrderStatus.ACCEPTED, none, true, true⟩).2 =
      Except.error errInvalidTransition ∧
    (updateOrderStatus dbB ⟨10, 1, OrderStatus.ACCEPTED, none, true, true⟩).1 = dbB := by
  exact ⟨by decide, by decide, by decide, by decide, rfl, rfl⟩

/-- Claim C5, amended: the transition table the code enforces is exactly
PENDING to CURRENT or REJECTED and CURRENT to COMPLETED or REJECTED, with
every other status (including CANCELLED and the claim's ACCEPTED,
IN_PROGRESS, DELIVERED, DISPUTED) allowing no outgoing edge; for an
existing order and an authorized caller, any requested edge outside the
table is rejected with the invalid-transition error and the database is
left untouched. -/
theorem C5_amended (db : DB) (i : UpdateInput) (order : Order)
    (ho : findOrder db i.orderId = some order)
    (hauth : order.clientId = i.userId ∨
      (findProfile db order.freelancerId).map (fun p => p.userId) = some i.userId) :
    (validTransitions OrderStatus.PENDING = [OrderStatus.CURRENT, OrderStatus.REJECTED] ∧
     validTransitions OrderStatus.CURRENT = [OrderStatus.COMPLETED, OrderStatus.REJECTED] ∧
     validTransitions OrderStatus.COMPLETED = [] ∧
     validTransitions OrderStatus.REJECTED = [] ∧
     validTransitions OrderStatus.CANCELLED = [] ∧
     validTransitions OrderStatus.ACCEPTED = [] ∧
     validTransitions OrderStatus.IN_PROGRESS = [] ∧
     validTransitions OrderStatus.DELIVERED = [] ∧
     validTransitions OrderStatus.DISPUTED = []) ∧
    ((validTransitions order.status).contains i.status = false →
      (updateOrderStatus db i).2 = Except.error errInvalidTransition ∧
      (updateOrderStatus db i).1 = db) := by
  refine ⟨⟨rfl, rfl, rfl, rfl, rfl, rfl, rfl, rfl, rfl⟩, ?_⟩
  intro hcont
  unfold updateOrderStatus
  rw [ho]
  dsimp only
  have hcond : (!(order.clientId == i.userId) &&
      !((findProfile db order.freelancerId).map (fun p => p.userId) == some i.userId)) = false := by
    rcases hauth with h | h <;> simp [h]
  rw [hcond, hcont]
  simp

theorem C5_amended_witness :
    (updateOrderStatus dbB ⟨10, 1, OrderStatus.ACCEPTED, none, true, true⟩).2 =
      Except.error errInvalidTransition :=
  ((C5_amended dbB ⟨10, 1, OrderStatus.ACCEPTED, none, true, true⟩
      (mkNewOrder dbA ciA gigA 100) rfl (Or.inl rfl)).2 (by decide)).1

/-- Claim C6, counterexample: an absent gig and an existing but
non-orderable (paused) gig fail with the SAME 404 ApiError, not with two
distinct NotFound / NotAvailable errors; in both cases the database is
untouched. -/
theorem C6_counterexample :
    (createOrder dbP ciMissing).2 = Except.error errGigNotFound ∧
    (createOrder dbP ciP).2 = Except.error errGigNotFound ∧
    errGigNotFound.code = 404 ∧
    (createOrder dbP ciMissing).1 = dbP ∧
    (createOrder dbP ciP).1 = dbP := by
  exact ⟨rfl, rfl, rfl, rfl, rfl⟩

/-- Claim C6, amended: when the gig is absent, and equally when it exists
with a status other than ACTIVE, createOrder fails with the single shared
404 error (message: Gig not found or not active) and writes nothing: no
order row, no audit row, no counter change, no notification. -/
theorem C6_amended (db : DB) (i : CreateInput) :
    (findGig db i.gigId = none →
      createOrder db i = (db, Except.error errGigNotFound)) ∧
    (∀ gig, findGig db i.gigId = some gig → gig.status ≠ strACTIVE →
      createOrder db i = (db, Except.error errGigNotFound)) := by
  constructor
  · intro h
    unfold createOrder
    rw [h]
  · intro gig h hs
    unfold createOrder
    rw [h]
    dsimp only
    have : (gig.status != strACTIVE) = true := bne_iff_ne.mpr hs
    rw [this]
    simp

theorem C6_amended_witness :
    createOrder dbP ciMissing = (dbP, Except.error errGigNotFound) ∧
    createOrder dbP ciP = (dbP, Except.error errGigNotFound) :=
  ⟨(C6_amended dbP ciMissing).1 rfl, (C6_amended dbP ciP).2 gigP rfl (by decide)⟩

theorem updateOrderStatus_notifFail (db : DB) (j : UpdateInput) (h : j.notifOk = false) :
    (updateOrderStatus db j).1 = db := by
  unfold updateOrderStatus
  rcases findOrder db j.orderId with _ | order
  · rfl
  · dsimp only
    split
    · rfl
    · split
      · rfl
      · rw [h]
        simp

theorem updateOrderStatus_enqFail (db : DB) (j : UpdateInput) (h : j.enqOk = false) :
    ∀ o, (updateOrderStatus db j).2 ≠ Except.ok o := by
  intro o
  unfold updateOrderStatus
  rcases findOrder db j.orderId with _ | order
  · simp
  · dsimp only
    split
    · simp
    · split
      · simp
      · split
        · simp
        · rcases hf : Option.map (fun p => p.userId) (findProfile db order.freelancerId)
              with _ | fu <;> simp only [hf]
          · simp
          · rw [h]
            simp

theorem createOrder_snd_flags (db : DB) (i : CreateInput) :
    (createOrder db { i with enqOk := false, notifOk := false }).2 = (createOrder db i).2 := by
  unfold createOrder
  dsimp only
  rcases hg : findGig db i.gigId with _ | gig <;> simp only [hg]
  by_cases hs : (gig.status != strACTIVE) = true
  · simp [hs]
  · simp only [Bool.not_eq_true] at hs
    rcases hp : gig.pricing.find? (fun q => q.1 == i.selectedPackage) with _ | pkg <;>
      simp only [hs, hp, Bool.false_eq_true, if_false]
    by_cases hc : (db.orders.any fun o => o.orderNumber == i.orderNumber) = true
    · simp [hc]
    · simp only [Bool.not_eq_true] at hc
      have hcdb : createCommitDB db { i with enqOk := false, notifOk := false } gig pkg.2 =
          createCommitDB db i gig pkg.2 := rfl
      simp only [hc, hcdb, Bool.false_eq_true, if_false]
      rcases hf : (findProfile (createCommitDB db i gig pkg.2) gig.freelancerId).map
          (fun p => p.userId) with _ | fu <;> simp only [hf]
      rfl

/-- Claim C7, counterexample: a transition whose post-commit queue enqueue
fails reports failure to its caller even though the core transaction
committed: the order is CURRENT and both audit rows exist, yet the handler
result is the wrapped 500 error — updateOrderStatus awaits
queueNotification without a catch. -/
theorem C7_counterexample :
    (updateOrderStatus dbB uiEnqFail).2 = Except.error errUpdateFailed ∧
    historyOf (updateOrderStatus dbB uiEnqFail).1 1 =
      [OrderStatus.PENDING, OrderStatus.CURRENT] ∧
    (∃ o, findOrder (updateOrderStatus dbB uiEnqFail).1 1 = some o ∧
      o.status = OrderStatus.CURRENT) := by
  exact ⟨rfl, by decide, ⟨applyStatusUpd uiEnqFail (mkNewOrder dbA ciA gigA 100), rfl, rfl⟩⟩

/-- Claim C7, amended: only createOrder swallows notification and enqueue
failures (its handler outcome does not depend on those two flags);
updateOrderStatus propagates an enqueue failure to its caller (no success
result is possible with a failing enqueue), a failing in-transaction
notification insert rolls the whole transition back, and cancelOrder never
reports success at all. -/
theorem C7_amended (db : DB) (i : CreateInput) (j : UpdateInput) :
    ((createOrder db { i with enqOk := false, notifOk := false }).2 =
      (createOrder db i).2) ∧
    (j.enqOk = false → ∀ o, (updateOrderStatus db j).2 ≠ Except.ok o) ∧
    (j.notifOk = false → (updateOrderStatus db j).1 = db) ∧
    (∀ (k : CancelInput) (o : Order), (cancelOrder db k).2 ≠ Except.ok o) :=
  ⟨createOrder_snd_flags db i,
   fun h => updateOrderStatus_enqFail db j h,
   fun h => updateOrderStatus_notifFail db j h,
   fun k o => cancelOrder_no_ok db k o⟩

theorem C7_amended_witness :
    (∀ o, (updateOrderStatus dbB uiEnqFail).2 ≠ Except.ok o) ∧
    (updateOrderStatus dbB uiNotifFail).1 = dbB :=
  ⟨(C7_amended dbB ciA uiEnqFail).2.1 rfl,
   (C7_amended dbB ciA uiNotifFail).2.2.1 rfl⟩

/-- Claim C8, counterexample: a createOrder call whose fire-and-forget
freelancerProfile update fails still reports success and persists the
order with its audit row, while the provider counters are left unapplied
(activeOrders stays 0 although one non-cancelled order now exists) — the
catch handler inside the transaction swallows the failed counter update. -/
theorem C8_counterexample :
    (∃ o, (createOrder dbA ciProfFail).2 = Except.ok o) ∧
    countProv (createOrder dbA ciProfFail).1 1 = 1 ∧
    getActive (createOrder dbA ciProfFail).1 1 = some 0 ∧
    historyOf (createOrder dbA ciProfFail).1 1 = [OrderStatus.PENDING] := by
  exact ⟨⟨mkNewOrder dbA ciProfFail gigA 100, rfl⟩, by decide, by decide, by decide⟩

/-- Claim C8, amended: the order row and its initial audit row do commit
together on every successful creation, but the counter updates are only
best-effort: when the profile (resp. gig) update flag fails the order
still commits with the provider (resp. gig) aggregates untouched. In
updateOrderStatus, the order update, audit row, and notification are
all-or-nothing: a failing notification insert leaves the database
untouched. -/
theorem C8_amended (db : DB) (i : CreateInput) (j : UpdateInput) :
    (i.profUpdOk = false → (createOrder db i).1.profiles = db.profiles) ∧
    (i.gigUpdOk = false → (createOrder db i).1.gigs = db.gigs) ∧
    (∀ o, (createOrder db i).2 = Except.ok o →
      (createOrder db i).1.orders = db.orders ++ [o] ∧
      (createOrder db i).1.history =
        db.history ++ [⟨o.id, OrderStatus.PENDING, some i.clientId⟩]) ∧
    (j.notifOk = false → (updateOrderStatus db j).1 = db) := by
  refine ⟨?_, ?_, ?_, fun h => updateOrderStatus_notifFail db j h⟩
  · intro h
    rcases createOrder_cases db i with ⟨hfst, _, _⟩ |
        ⟨gig, pkg, _, _, _, _, _, _, hprof, _, _⟩
    · rw [hfst]
    · rw [hprof, h]
      simp
  · intro h
    rcases createOrder_cases db i with ⟨hfst, _, _⟩ |
        ⟨gig, pkg, _, _, _, _, _, _, _, hgigs, _⟩
    · rw [hfst]
    · rw [hgigs, h]
      simp
  · intro o hok
    rcases createOrder_cases db i with ⟨_, _, hnok⟩ |
        ⟨gig, pkg, _, _, _, ho2, hh2, _, _, _, hsnd⟩
    · exact absurd hok (hnok o)
    · have hoeq := hsnd o hok
      constructor
      · rw [ho2, hoeq]
      · rw [hh2, hoeq]
        rfl

theorem C8_amended_witness :
    (createOrder dbA ciProfFail).1.profiles = dbA.profiles ∧
    (updateOrderStatus dbB uiNotifFail).1 = dbB :=
  ⟨(C8_amended dbA ciProfFail uiNotifFail).1 rfl,
   (C8_amended dbB ciProfFail uiNotifFail).2.2.2 rfl⟩

/-! Order-number uniqueness. -/

theorem numbers_step (db : DB) (op : Op) (h : numbersNodup db) :
    numbersNodup (applyOp db op) := by
  cases op with
  | create i =>
    have happly : applyOp db (Op.create i) = (createOrder db i).1 := rfl
    rcases createOrder_cases db i with ⟨hfst, _, _⟩ |
        ⟨gig, pkg, hg, hp, hcommit, ho, _, _, _, _, _⟩
    · rw [happly, hfst]
      exact h
    · unfold numbersNodup at h ⊢
      rw [happly, ho, List.map_append, List.nodup_append]
      refine ⟨h, by simp, ?_⟩
      have hfresh : (db.orders.any (fun o => o.orderNumber == i.orderNumber)) = false := by
        unfold createCommits at hcommit
        rw [hg] at hcommit
        simp only [Bool.and_eq_true, Bool.not_eq_eq_eq_not, Bool.not_true] at hcommit
        exact hcommit.2
      rw [List.any_eq_false] at hfresh
      intro x hx hy
      rcases List.mem_map.mp hx with ⟨o, hmem, hxo⟩
      simp only [List.map_cons, List.map_nil, List.mem_cons, List.not_mem_nil, or_false] at hy
      have hxn : x = i.orderNumber := by
        rw [hy]
        rfl
      apply hfresh o hmem
      rw [beq_iff_eq, hxo, hxn]
  | update i =>
    have happly : applyOp db (Op.update i) = (updateOrderStatus db i).1 := rfl
    rcases updateOrderStatus_cases db i with hfst | ⟨order, _, _, horders, _, _, _⟩
    · rw [happly, hfst]
      exact h
    · unfold numbersNodup at h ⊢
      rw [happly, horders, List.map_map]
      have hcomp : ((fun o : Order => o.orderNumber) ∘ fun o =>
          if o.id == order.id then applyStatusUpd i o else o) =
            fun o : Order => o.orderNumber := by
        funext x
        simp only [Function.comp_apply]
        split <;> rfl
      rw [hcomp]
      exact h
  | cancel i =>
    have happly : applyOp db (Op.cancel i) = (cancelOrder db i).1 := rfl
    rw [happly, cancelOrder_fst]
    exact h

theorem numbers_run (db : DB) (ops : List Op) (h : numbersNodup db) :
    numbersNodup (applyRun db ops) := by
  induction ops generalizing db with
  | nil => exact h
  | cons op rest ih => exact ih (applyOp db op) (numbers_step db op h)

/-- A create whose order number collides with an existing order fails
(the unique-constraint violation rolls the transaction back) and touches
nothing: there is no retry with a freshly generated number. -/
theorem createOrder_collision (db : DB) (i : CreateInput)
    (h : db.orders.any (fun o => o.orderNumber == i.orderNumber) = true) :
    (createOrder db i).1 = db ∧ ∀ o, (createOrder db i).2 ≠ Except.ok o := by
  unfold createOrder
  rcases hg : findGig db i.gigId with _ | gig <;> simp only [hg]
  · exact ⟨trivial, by simp⟩
  · by_cases hs : (gig.status != strACTIVE) = true
    · simp [hs]
    · simp only [Bool.not_eq_true] at hs
      rcases hp : gig.pricing.find? (fun q => q.1 == i.selectedPackage) with _ | pkg <;>
        simp only [hs, hp, Bool.false_eq_true, if_false]
      · exact ⟨trivial, by simp⟩
      · rw [h]
        simp

/-- Claim C9, counterexample: the order number is indeed date-stamped with
a random suffix, but generation is a single attempt: creating a second
order whose generated number equals an existing one (same date, same
random suffix) makes createOrder fail with the wrapped 500 and leave the
database untouched — it does not retry generation as the claim states. -/
theorem C9_counterexample :
    genOrderNumber 2025 10 11 suffAAAA = ordNumA ∧
    (createOrder dbB ciDup).2 = Except.error errCreateFailed ∧
    (createOrder dbB ciDup).1 = dbB ∧
    (createOrder dbB ciDup).1.orders.length = 1 := by
  exact ⟨by decide, rfl, rfl, by decide⟩

/-- Claim C9, amended: order numbers remain pairwise distinct over any
operation sequence (the DB unique constraint makes a colliding insert
fail), but a collision is surfaced as a failed creation with the database
untouched, not retried. -/
theorem C9_amended (db : DB) (i : CreateInput) (ops : List Op)
    (hnodup : numbersNodup db) :
    numbersNodup (applyRun db ops) ∧
    (db.orders.any (fun o => o.orderNumber == i.orderNumber) = true →
      (createOrder db i).1 = db ∧ ∀ o, (createOrder db i).2 ≠ Except.ok o) :=
  ⟨numbers_run db ops hnodup, fun h => createOrder_collision db i h⟩

theorem C9_amended_witness :
    numbersNodup (applyRun dbB [Op.update uiA]) ∧ (createOrder dbB ciDup).1 = dbB :=
  ⟨(C9_amended dbB ciDup [Op.update uiA] (by decide)).1,
   ((C9_amended dbB ciDup [Op.update uiA] (by decide)).2 (by decide)).1⟩

/-- Claim C10 (code bug in cancelOrder): the decrement the claim describes
is indeed written unconditionally for every status the guard allows
(including PENDING, which is not in the spec active set), but the query
includes freelancer without its nested user relation, so building the
notification recipient dereferences an undefined order.freelancer.user and
throws inside the transaction; every cancelOrder call therefore rolls back
and reports failure — no successful cancel ever commits. Concretely, the
fixture client cancelling their own PENDING order receives the wrapped
500. -/
theorem C10_cancel_bug :
    (∀ (db : DB) (i : CancelInput),
      (cancelOrder db i).1 = db ∧ ∀ o, (cancelOrder db i).2 ≠ Except.ok o) ∧
    (cancelOrder dbB cxA).2 = Except.error errCancelFailed ∧
    cancellableStatuses.contains OrderStatus.PENDING = true ∧
    specActiveSet.contains OrderStatus.PENDING = false := by
  refine ⟨fun db i => ⟨cancelOrder_fst db i, fun o => cancelOrder_no_ok db i o⟩, rfl,
    by decide, by decide⟩

end Vid
